import Mathlib

/-!
Verification of the training-step / training-loop contract of the notebook
`3_Training_Neural_Networks.ipynb`.

The notebook trains a feed-forward network
`Linear(784,128) → ReLU → Linear(128,64) → ReLU → Linear(64,10) → LogSoftmax(dim=1)`
with `NLLLoss` and plain `SGD`, in a two-level loop (epochs over batches).
We embed the numerics over the real numbers: tensors become functions
`Fin n → ℝ`, a batch is a list of (flattened image, label) pairs, and the
externally owned gradient engine (autograd) is an abstract function from
parameters and a batch to a same-shaped gradient.  The framework calls the
notebook makes (`zero_grad`, `backward` with accumulation, `SGD.step`,
`CrossEntropyLoss`, `NLLLoss`, `LogSoftmax`) are given their documented
semantics; the notebook's own glue code (cells 5, 21, 24, 26, 27, 29) is
translated line by line.
-/

noncomputable section

namespace TrainingNotebook

/-- Number of classes: the final `nn.Linear(64, 10)` layer outputs 10 scores. -/
abbrev numClasses : ℕ := 10

/-- A per-example score (or log-probability) vector over the 10 classes. -/
abbrev Scores := Fin numClasses → ℝ

/-- A batch pairs each example's model output (or input) with its integer
class label; `Fin numClasses` enforces the valid-label precondition. -/
abbrev ScoredBatch := List (Scores × Fin numClasses)

/-- Largest entry of a score vector, used by the numerically stabilized
log-softmax (subtract the maximum before exponentiating). -/
def maxScore (x : Scores) : ℝ :=
  Finset.univ.sup' Finset.univ_nonempty x

/-- Numerically stabilized log-softmax, as `nn.CrossEntropyLoss` applies
internally: subtract the maximum score, exponentiate, normalize in log space. -/
def logSoftmaxStable (x : Scores) : Scores :=
  fun i => (x i - maxScore x) - Real.log (∑ j, Real.exp (x j - maxScore x))

/-- The `nn.LogSoftmax(dim=1)` layer, written directly from its definition
log(exp xᵢ / ∑ⱼ exp xⱼ) = xᵢ - log ∑ⱼ exp xⱼ. -/
def logSoftmax (x : Scores) : Scores :=
  fun i => x i - Real.log (∑ j, Real.exp (x j))

/-- The `nn.NLLLoss()` criterion with its default mean reduction: average of
the negated log-probability of each example's true class. -/
def nllLoss (outputs : ScoredBatch) : ℝ :=
  (outputs.map fun e => -(e.1 e.2)).sum / outputs.length

/-- The `nn.CrossEntropyLoss()` criterion of cell-5: per the PyTorch
documentation quoted in the notebook, it combines a (stabilized) log-softmax
with the negative log-likelihood loss, taking raw scores as input. -/
def crossEntropyLoss (batch : ScoredBatch) : ℝ :=
  nllLoss (batch.map fun e => (logSoftmaxStable e.1, e.2))

/-- Weight matrix and bias vector of one `nn.Linear(nIn, nOut)` layer. -/
structure LinearParams (nIn nOut : ℕ) where
  weight : Fin nOut → Fin nIn → ℝ
  bias : Fin nOut → ℝ

/-- Forward pass of an `nn.Linear` layer: affine map `x ↦ W x + b`. -/
def linearForward (p : LinearParams nIn nOut) (x : Fin nIn → ℝ) :
    Fin nOut → ℝ :=
  fun o => (∑ i, p.weight o i * x i) + p.bias o

/-- The `nn.ReLU()` activation, applied elementwise. -/
def relu (x : Fin n → ℝ) : Fin n → ℝ :=
  fun i => max (x i) 0

/-- Trainable parameters of the cell-29 model: the three linear layers of
`nn.Sequential(Linear(784,128), ReLU, Linear(128,64), ReLU, Linear(64,10),
LogSoftmax(dim=1))`.  This structure also serves as the shape of the
per-parameter gradient buffers. -/
structure ModelParams where
  fc1 : LinearParams 784 128
  fc2 : LinearParams 128 64
  fc3 : LinearParams 64 10

/-- A flattened MNIST image, after `images.view(images.shape[0], -1)`. -/
abbrev Image := Fin 784 → ℝ

/-- A training batch: one (flattened image, label) pair per example, as
yielded by iterating `trainloader`. -/
abbrev Batch := List (Image × Fin numClasses)

/-- Forward pass of the cell-29 model: linear, ReLU, linear, ReLU, linear,
log-softmax, producing per-class log-probabilities. -/
def modelForward (p : ModelParams) (x : Image) : Scores :=
  logSoftmax (linearForward p.fc3 (relu (linearForward p.fc2
    (relu (linearForward p.fc1 x)))))

/-- The loss the loop computes for one batch at given parameters:
`criterion(model(images), labels)` with `criterion = nn.NLLLoss()`. -/
def batchLoss (p : ModelParams) (b : Batch) : ℝ :=
  nllLoss (b.map fun e => (modelForward p e.1, e.2))

/-- Mutable training state: the model's parameters and, for each parameter
tensor, its same-shaped gradient buffer (`.grad`). -/
structure NetState where
  params : ModelParams
  grads : ModelParams

/-- The gradient engine (autograd, an external collaborator): from current
parameters and a batch it produces ∂loss/∂parameter for every parameter. -/
abbrev GradEngine := ModelParams → Batch → ModelParams

/-- The all-zero parameter-shaped tensor collection. -/
def zeroParams : ModelParams :=
  ⟨⟨fun _ _ => 0, fun _ => 0⟩, ⟨fun _ _ => 0, fun _ => 0⟩,
    ⟨fun _ _ => 0, fun _ => 0⟩⟩

/-- Elementwise sum of two parameter-shaped tensor collections. -/
def addParams (a b : ModelParams) : ModelParams :=
  ⟨⟨fun o i => a.fc1.weight o i + b.fc1.weight o i,
      fun o => a.fc1.bias o + b.fc1.bias o⟩,
    ⟨fun o i => a.fc2.weight o i + b.fc2.weight o i,
      fun o => a.fc2.bias o + b.fc2.bias o⟩,
    ⟨fun o i => a.fc3.weight o i + b.fc3.weight o i,
      fun o => a.fc3.bias o + b.fc3.bias o⟩⟩

/-- An `optimizer.zero_grad()` call: every gradient buffer is reset to zero;
parameters are untouched. -/
def zeroGrad (s : NetState) : NetState :=
  { s with grads := zeroParams }

/-- A `loss.backward()` call: autograd computes this step's gradients at the
current parameters and ACCUMULATES them onto the existing buffer contents
(the notebook's cell-25 text: when you do multiple backwards passes, the
gradients are accumulated). -/
def backwardPass (g : GradEngine) (s : NetState) (b : Batch) : NetState :=
  { s with grads := addParams s.grads (g s.params b) }

/-- An `optimizer.step()` call for `optim.SGD(model.parameters(), lr)` with
no momentum: each parameter entry decreases by lr times its gradient entry,
in place; gradient buffers are untouched. -/
def sgdStep (lr : ℝ) (s : NetState) : NetState :=
  { s with params :=
      ⟨⟨fun o i => s.params.fc1.weight o i - lr * s.grads.fc1.weight o i,
          fun o => s.params.fc1.bias o - lr * s.grads.fc1.bias o⟩,
        ⟨fun o i => s.params.fc2.weight o i - lr * s.grads.fc2.weight o i,
          fun o => s.params.fc2.bias o - lr * s.grads.fc2.bias o⟩,
        ⟨fun o i => s.params.fc3.weight o i - lr * s.grads.fc3.weight o i,
          fun o => s.params.fc3.bias o - lr * s.grads.fc3.bias o⟩⟩ }

/-- The learning rate of the cell-29 training loop. -/
def lr29 : ℝ := 0.003

/-- The epoch count of the cell-29 training loop. -/
def epochs29 : ℕ := 5

/-- One iteration of the inner loop of cell-29, in source order:
`optimizer.zero_grad()`, `output = model(images)`,
`loss = criterion(output, labels)`, `loss.backward()`, `optimizer.step()`,
returning the updated state together with the scalar `loss.item()`. -/
def trainingStep (g : GradEngine) (lr : ℝ) (s : NetState) (b : Batch) :
    NetState × ℝ :=
  let s1 := zeroGrad s
  let output := b.map fun e => (modelForward s1.params e.1, e.2)
  let loss := nllLoss output
  let s2 := backwardPass g s1 b
  let s3 := sgdStep lr s2
  (s3, loss)

/-- The inner `for images, labels in trainloader` loop of cell-29, threading
the state and the `running_loss` accumulator through the batch sequence. -/
def epochFold (g : GradEngine) (lr : ℝ) (init : NetState × ℝ)
    (batches : List Batch) : NetState × ℝ :=
  batches.foldl (fun acc b =>
    let r := trainingStep g lr acc.1 b
    (r.1, acc.2 + r.2)) init

/-- The outer `for _ in range(epochs)` loop of cell-29: each epoch starts
`running_loss = 0`, folds over the batch sequence, then reports
`running_loss / len(trainloader)`.  Returns the final state and the list of
reported mean losses, one per epoch. -/
def runEpochs (g : GradEngine) (lr : ℝ) (epochs : ℕ)
    (batches : List Batch) (s : NetState) : NetState × List ℝ :=
  match epochs with
  | 0 => (s, [])
  | Nat.succ n =>
    let e := epochFold g lr (s, 0) batches
    let rest := runEpochs g lr n batches e.1
    (rest.1, (e.2 / batches.length) :: rest.2)

/-- The per-batch scalar losses produced along one traversal of the batch
sequence, each computed at the state reached when its batch comes up. -/
def lossTrace (g : GradEngine) (lr : ℝ) (s : NetState) :
    List Batch → List ℝ
  | [] => []
  | b :: rest =>
    let r := trainingStep g lr s b
    r.2 :: lossTrace g lr r.1 rest

/-- The inner loop of cell-29 instrumented with a consumption log: identical
to `epochFold`, except that every batch handed to `trainingStep` is also
appended to a log. -/
def epochFoldLog (g : GradEngine) (lr : ℝ)
    (init : (NetState × ℝ) × List Batch) (batches : List Batch) :
    (NetState × ℝ) × List Batch :=
  batches.foldl (fun acc b =>
    let r := trainingStep g lr acc.1.1 b
    ((r.1, acc.1.2 + r.2), acc.2 ++ [b])) init

/-- The outer loop of cell-29 instrumented with a consumption log: identical
to `runEpochs`, except that the batches consumed by every training step are
logged in order. -/
def runEpochsLog (g : GradEngine) (lr : ℝ) (epochs : ℕ)
    (batches : List Batch) (s : NetState) (log : List Batch) :
    (NetState × List ℝ) × List Batch :=
  match epochs with
  | 0 => ((s, []), log)
  | Nat.succ n =>
    let e := epochFoldLog g lr ((s, 0), log) batches
    let rest := runEpochsLog g lr n batches e.1.1 e.2
    ((rest.1.1, (e.1.2 / batches.length) :: rest.1.2), rest.2)

/-- Holds when every entry of every gradient buffer of the state is zero. -/
def gradsAllZero (s : NetState) : Prop :=
  (∀ o i, s.grads.fc1.weight o i = 0) ∧ (∀ o, s.grads.fc1.bias o = 0) ∧
    (∀ o i, s.grads.fc2.weight o i = 0) ∧ (∀ o, s.grads.fc2.bias o = 0) ∧
    (∀ o i, s.grads.fc3.weight o i = 0) ∧ (∀ o, s.grads.fc3.bias o = 0)

/-- The state a run starts from: parameters produced by the (externally
owned, seeded) random initializer, and empty gradient buffers. -/
def initialState (init : ℕ → ModelParams) (seed : ℕ) : NetState :=
  ⟨init seed, zeroParams⟩

/-- The sum of exponentials of the scores is positive (there are 10 classes). -/
lemma sum_exp_pos (x : Scores) : 0 < ∑ j, Real.exp (x j) :=
  Finset.sum_pos (fun j _ => Real.exp_pos (x j)) Finset.univ_nonempty

/-- Over the reals, the stabilization shift cancels: subtracting the maximum
score before exponentiating does not change the log-softmax value. -/
lemma logSoftmaxStable_eq_logSoftmax (x : Scores) :
    logSoftmaxStable x = logSoftmax x := by
  funext i
  unfold logSoftmaxStable logSoftmax
  have hexp : ∀ j : Fin numClasses,
      Real.exp (x j - maxScore x) = Real.exp (x j) / Real.exp (maxScore x) :=
    fun j => Real.exp_sub (x j) (maxScore x)
  have hsum : (∑ j, Real.exp (x j - maxScore x))
      = (∑ j, Real.exp (x j)) / Real.exp (maxScore x) := by
    rw [Finset.sum_congr rfl fun j _ => hexp j, ← Finset.sum_div]
  rw [hsum, Real.log_div (ne_of_gt (sum_exp_pos x)) (Real.exp_ne_zero _),
    Real.log_exp]
  ring

/-- Accumulating onto all-zero gradient buffers yields exactly the new
gradients. -/
lemma addParams_zeroParams (x : ModelParams) : addParams zeroParams x = x := by
  obtain ⟨⟨w1, c1⟩, ⟨w2, c2⟩, ⟨w3, c3⟩⟩ := x
  simp [addParams, zeroParams]

/-- The scalar loss a training step returns is the batch loss at the
parameters the step started from. -/
lemma trainingStep_loss (g : GradEngine) (lr : ℝ) (s : NetState) (b : Batch) :
    (trainingStep g lr s b).2 = batchLoss s.params b :=
  rfl

/-- The `running_loss` accumulator of one inner loop equals its initial value
plus the sum of the per-batch losses of the traversal, and the final state
does not depend on the accumulator. -/
lemma epochFold_eq (g : GradEngine) (lr : ℝ) :
    ∀ (batches : List Batch) (s : NetState) (r : ℝ),
      epochFold g lr (s, r) batches
        = ((epochFold g lr (s, 0) batches).1,
            r + (lossTrace g lr s batches).sum) := by
  intro batches
  induction batches with
  | nil => intro s r; simp [epochFold, lossTrace]
  | cons b rest ih =>
    intro s r
    simp only [epochFold, List.foldl_cons, lossTrace, List.sum_cons]
    have h1 := ih (trainingStep g lr s b).1 (r + (trainingStep g lr s b).2)
    have h2 := ih (trainingStep g lr s b).1 (0 + (trainingStep g lr s b).2)
    simp only [epochFold] at h1 h2
    rw [h1, h2, add_assoc]

/-- The outer loop reports exactly one value per epoch. -/
lemma runEpochs_reports_length (g : GradEngine) (lr : ℝ) :
    ∀ (e : ℕ) (batches : List Batch) (s : NetState),
      (runEpochs g lr e batches s).2.length = e := by
  intro e
  induction e with
  | zero => intro batches s; rfl
  | succ n ih => intro batches s; simp [runEpochs, ih]

/-- The logged inner loop computes the same state and accumulator as the
plain one and appends exactly the traversed batch sequence to its log. -/
lemma epochFoldLog_eq (g : GradEngine) (lr : ℝ) :
    ∀ (batches : List Batch) (init : NetState × ℝ) (log : List Batch),
      epochFoldLog g lr (init, log) batches
        = (epochFold g lr init batches, log ++ batches) := by
  intro batches
  induction batches with
  | nil => intro init log; simp [epochFoldLog, epochFold]
  | cons b rest ih =>
    intro init log
    simp only [epochFoldLog, epochFold, List.foldl_cons] at ih ⊢
    rw [ih]
    simp

/-- The logged outer loop computes the same result as the plain one and its
log grows by one copy of the batch sequence per epoch. -/
lemma runEpochsLog_eq (g : GradEngine) (lr : ℝ) (batches : List Batch) :
    ∀ (e : ℕ) (s : NetState) (log : List Batch),
      runEpochsLog g lr e batches s log
        = (runEpochs g lr e batches s,
            log ++ (List.replicate e batches).flatten) := by
  intro e
  induction e with
  | zero => intro s log; simp [runEpochsLog, runEpochs]
  | succ n ih =>
    intro s log
    simp only [runEpochsLog, runEpochs, epochFoldLog_eq, List.replicate_succ,
      List.flatten_cons, ih]
    simp [List.append_assoc]

/-- Every coordinate of a log-softmax output is non-positive: each class's
softmax probability is at most one. -/
lemma logSoftmax_nonpos (x : Scores) (i : Fin numClasses) :
    logSoftmax x i ≤ 0 := by
  unfold logSoftmax
  have hle : Real.exp (x i) ≤ ∑ j, Real.exp (x j) :=
    Finset.single_le_sum (fun j _ => le_of_lt (Real.exp_pos (x j)))
      (Finset.mem_univ i)
  have hlog : x i ≤ Real.log (∑ j, Real.exp (x j)) := by
    have := Real.log_le_log (Real.exp_pos (x i)) hle
    rwa [Real.log_exp] at this
  linarith

/-- The batch loss of the cell-29 model is non-negative: the model output is
a log-softmax, so every per-example penalty is non-negative. -/
lemma batchLoss_nonneg (p : ModelParams) (b : Batch) :
    0 ≤ batchLoss p b := by
  unfold batchLoss nllLoss
  apply div_nonneg _ (Nat.cast_nonneg _)
  apply List.sum_nonneg
  intro r hr
  simp only [List.map_map, List.mem_map] at hr
  obtain ⟨e, _, he⟩ := hr
  have := logSoftmax_nonpos (linearForward p.fc3 (relu (linearForward p.fc2
    (relu (linearForward p.fc1 e.1))))) e.2
  simp only [Function.comp, modelForward] at he
  rw [← he]
  simpa using this

/-- Every per-batch loss along a traversal is non-negative. -/
lemma lossTrace_nonneg (g : GradEngine) (lr : ℝ) :
    ∀ (batches : List Batch) (s : NetState),
      ∀ r ∈ lossTrace g lr s batches, 0 ≤ r := by
  intro batches
  induction batches with
  | nil => intro s r hr; simp [lossTrace] at hr
  | cons b rest ih =>
    intro s r hr
    simp only [lossTrace, List.mem_cons] at hr
    rcases hr with hr | hr
    · rw [hr, trainingStep_loss]; exact batchLoss_nonneg _ _
    · exact ih _ r hr

/-- C1: for every batch of (scores, labels), the raw-score cross-entropy
loss (stabilized log-softmax taken internally, cell-5) and the negative
log-likelihood of the log-softmax model outputs (cell-21) produce the same
scalar loss — exactly equal over the reals, hence in particular within 1e-5
relative tolerance. -/
theorem loss_formulations_agree (batch : ScoredBatch) :
    crossEntropyLoss batch
        = nllLoss (batch.map fun e => (logSoftmax e.1, e.2))
      ∧ |crossEntropyLoss batch
            - nllLoss (batch.map fun e => (logSoftmax e.1, e.2))|
          ≤ (1 / 100000) * |nllLoss (batch.map fun e => (logSoftmax e.1, e.2))| := by
  have hfun : (fun e : Scores × Fin numClasses => (logSoftmaxStable e.1, e.2))
      = fun e : Scores × Fin numClasses => (logSoftmax e.1, e.2) := by
    funext e
    rw [logSoftmaxStable_eq_logSoftmax]
  have h : crossEntropyLoss batch
      = nllLoss (batch.map fun e => (logSoftmax e.1, e.2)) := by
    unfold crossEntropyLoss
    rw [hfun]
  refine ⟨h, ?_⟩
  rw [h, sub_self, abs_zero]
  positivity

/-- C2: a training step executes the five stages — clear gradients, forward
pass, loss computation, backward pass, parameter update — in exactly that
order, each stage consuming the previous stage's output: the step equals the
explicit composition of `zeroGrad`, `modelForward`, `nllLoss`,
`backwardPass` and `sgdStep`. -/
theorem trainingStep_stage_order (g : GradEngine) (lr : ℝ) (s : NetState)
    (b : Batch) :
    trainingStep g lr s b
      = (sgdStep lr (backwardPass g (zeroGrad s) b),
          nllLoss (b.map fun e => (modelForward (zeroGrad s).params e.1, e.2))) :=
  rfl

/-- C3: each epoch reports exactly one progress value, and that value is the
sum of the per-batch scalar losses of that epoch's traversal divided by the
number of batches in the sequence. -/
theorem epoch_report_is_mean_loss (g : GradEngine) (lr : ℝ)
    (batches : List Batch) (s : NetState) :
    (∀ e, (runEpochs g lr e batches s).2.length = e)
      ∧ ∀ n, (runEpochs g lr (n + 1) batches s).2
          = ((lossTrace g lr s batches).sum / batches.length)
            :: (runEpochs g lr n batches (epochFold g lr (s, 0) batches).1).2 := by
  refine ⟨fun e => runEpochs_reports_length g lr e batches s, fun n => ?_⟩
  show ((epochFold g lr (s, 0) batches).2 / batches.length)
      :: (runEpochs g lr n batches (epochFold g lr (s, 0) batches).1).2
    = ((lossTrace g lr s batches).sum / batches.length)
      :: (runEpochs g lr n batches (epochFold g lr (s, 0) batches).1).2
  rw [epochFold_eq g lr batches s 0]
  simp

/-- C4: immediately after `optimizer.zero_grad()` every gradient buffer
entry is exactly zero, the parameters are untouched, and the buffers stay
zero until the next backward pass: the backward pass that follows a clear
deposits exactly the freshly computed gradients, with no stale content. -/
theorem zeroGrad_clears_buffers (s : NetState) :
    gradsAllZero (zeroGrad s)
      ∧ (zeroGrad s).params = s.params
      ∧ ∀ (g : GradEngine) (b : Batch),
          (backwardPass g (zeroGrad s) b).grads = g s.params b := by
  refine ⟨?_, rfl, fun g b => ?_⟩
  · exact ⟨fun _ _ => rfl, fun _ => rfl, fun _ _ => rfl, fun _ => rfl,
      fun _ _ => rfl, fun _ => rfl⟩
  · show addParams zeroParams (g s.params b) = g s.params b
    exact addParams_zeroParams _

/-- C5: `loss.backward()` adds each newly computed gradient entry onto the
existing buffer contents rather than overwriting; the optimizer step leaves
the buffers untouched, so after a full training step the buffers hold
exactly that step's gradients (the step cleared them first). -/
theorem backward_accumulates (g : GradEngine) (lr : ℝ) (s : NetState)
    (b : Batch) :
    (∀ o i, (backwardPass g s b).grads.fc1.weight o i
        = s.grads.fc1.weight o i + (g s.params b).fc1.weight o i)
      ∧ (∀ o, (backwardPass g s b).grads.fc1.bias o
          = s.grads.fc1.bias o + (g s.params b).fc1.bias o)
      ∧ (∀ o i, (backwardPass g s b).grads.fc2.weight o i
          = s.grads.fc2.weight o i + (g s.params b).fc2.weight o i)
      ∧ (∀ o, (backwardPass g s b).grads.fc2.bias o
          = s.grads.fc2.bias o + (g s.params b).fc2.bias o)
      ∧ (∀ o i, (backwardPass g s b).grads.fc3.weight o i
          = s.grads.fc3.weight o i + (g s.params b).fc3.weight o i)
      ∧ (∀ o, (backwardPass g s b).grads.fc3.bias o
          = s.grads.fc3.bias o + (g s.params b).fc3.bias o)
      ∧ (sgdStep lr s).grads = s.grads
      ∧ (trainingStep g lr s b).1.grads = g s.params b := by
  refine ⟨fun _ _ => rfl, fun _ => rfl, fun _ _ => rfl, fun _ => rfl,
    fun _ _ => rfl, fun _ => rfl, rfl, ?_⟩
  show addParams zeroParams (g s.params b) = g s.params b
  exact addParams_zeroParams _

/-- C6: `optimizer.step()` for plain SGD subtracts (learning rate ×
gradient) from every parameter entry, elementwise, and changes nothing
else — in particular the gradient buffers are untouched, and there is no
momentum or adaptive-scaling state anywhere in `NetState`. -/
theorem sgd_update_rule (lr : ℝ) (s : NetState) :
    (∀ o i, (sgdStep lr s).params.fc1.weight o i
        = s.params.fc1.weight o i - lr * s.grads.fc1.weight o i)
      ∧ (∀ o, (sgdStep lr s).params.fc1.bias o
          = s.params.fc1.bias o - lr * s.grads.fc1.bias o)
      ∧ (∀ o i, (sgdStep lr s).params.fc2.weight o i
          = s.params.fc2.weight o i - lr * s.grads.fc2.weight o i)
      ∧ (∀ o, (sgdStep lr s).params.fc2.bias o
          = s.params.fc2.bias o - lr * s.grads.fc2.bias o)
      ∧ (∀ o i, (sgdStep lr s).params.fc3.weight o i
          = s.params.fc3.weight o i - lr * s.grads.fc3.weight o i)
      ∧ (∀ o, (sgdStep lr s).params.fc3.bias o
          = s.params.fc3.bias o - lr * s.grads.fc3.bias o)
      ∧ (sgdStep lr s).grads = s.grads :=
  ⟨fun _ _ => rfl, fun _ => rfl, fun _ _ => rfl, fun _ => rfl,
    fun _ _ => rfl, fun _ => rfl, rfl⟩

/-- C7: for every epoch count the loop terminates having consumed exactly
epoch-count copies of the batch sequence, in order — each batch processed
exactly once per traversal (witnessed by the instrumented loop, which agrees
with the plain one) — and reports exactly one loss per epoch. -/
theorem loop_processes_each_batch_once (g : GradEngine) (lr : ℝ) (e : ℕ)
    (batches : List Batch) (s : NetState) :
    (runEpochsLog g lr e batches s []).2 = (List.replicate e batches).flatten
      ∧ (runEpochsLog g lr e batches s []).1 = runEpochs g lr e batches s
      ∧ (runEpochs g lr e batches s).2.length = e := by
  rw [runEpochsLog_eq]
  exact ⟨by simp, rfl, runEpochs_reports_length g lr e batches s⟩

/-- C8: training is deterministic: with equal initialization seeds and equal
batch sequences, two runs of the loop produce identical final parameters and
identical reported loss sequences. -/
theorem training_run_deterministic (init : ℕ → ModelParams) (g : GradEngine)
    (lr : ℝ) (e : ℕ) (seed1 seed2 : ℕ) (b1 b2 : List Batch)
    (hs : seed1 = seed2) (hb : b1 = b2) :
    runEpochs g lr e b1 (initialState init seed1)
      = runEpochs g lr e b2 (initialState init seed2) := by
  subst hs
  subst hb
  rfl

/-- Witness for C8 at a concrete seed and batch sequence. -/
theorem training_run_deterministic_witness :
    ((0 : ℕ) = 0 ∧ ([] : List Batch) = [])
      ∧ runEpochs (fun _ _ => zeroParams) lr29 epochs29 []
            (initialState (fun _ => zeroParams) 0)
          = runEpochs (fun _ _ => zeroParams) lr29 epochs29 []
            (initialState (fun _ => zeroParams) 0) :=
  ⟨⟨rfl, rfl⟩,
    training_run_deterministic (fun _ => zeroParams) (fun _ _ => zeroParams)
      lr29 epochs29 0 0 [] [] rfl rfl⟩

/-- C9: every mean loss the loop reports is non-negative (and, being a real
number in this embedding, finite): the model output is a log-softmax, so
each per-example penalty, hence each batch loss, hence each epoch mean, is
non-negative. -/
theorem epoch_mean_loss_nonneg (g : GradEngine) (lr : ℝ) :
    ∀ (e : ℕ) (batches : List Batch) (s : NetState),
      ∀ r ∈ (runEpochs g lr e batches s).2, 0 ≤ r := by
  intro e
  induction e with
  | zero => intro batches s r hr; simp [runEpochs] at hr
  | succ n ih =>
    intro batches s r hr
    simp only [runEpochs, List.mem_cons] at hr
    rcases hr with hr | hr
    · rw [hr, epochFold_eq g lr batches s 0, zero_add]
      apply div_nonneg _ (Nat.cast_nonneg _)
      exact List.sum_nonneg (lossTrace_nonneg g lr batches s)
    · exact ih batches _ r hr

/-- Witness for C9: a one-epoch run over an empty batch sequence reports a
mean loss of zero, which is non-negative. -/
theorem epoch_mean_loss_nonneg_witness :
    ((0 : ℝ) ∈ (runEpochs (fun _ _ => zeroParams) lr29 1 []
        (initialState (fun _ => zeroParams) 0)).2)
      ∧ (0 : ℝ) ≤ 0 :=
  ⟨by simp [runEpochs, epochFold], by
    exact epoch_mean_loss_nonneg (fun _ _ => zeroParams) lr29 1 []
      (initialState (fun _ => zeroParams) 0) 0
      (by simp [runEpochs, epochFold])⟩

/-- C10: the scalar added to `running_loss` after the optimizer step is the
loss the forward pass computed on the pre-update parameters — the backward
pass and the parameter update do not alter the already-computed scalar. -/
theorem running_loss_uses_prestep_value (g : GradEngine) (lr : ℝ)
    (s : NetState) (b : Batch) :
    (trainingStep g lr s b).2 = batchLoss s.params b
      ∧ ∀ (r0 : ℝ) (rest : List Batch),
          epochFold g lr (s, r0) (b :: rest)
            = epochFold g lr ((trainingStep g lr s b).1,
                r0 + batchLoss s.params b) rest :=
  ⟨rfl, fun _ _ => rfl⟩

end TrainingNotebook
